import Mathlib

/-
Verification of the interaction / animation state machine of the
`lichess-board` chessboard widget (`src/lichess_board/widget.py`).

The widget consumes an external rules engine (python-chess) through a
narrow interface: piece lookup, side to move, legal-move enumeration,
move stack, castling detection, push and pop.  Following the spec's
architecture (the rules engine is an external collaborator, not part of
the core), the widget semantics below are parametrised by an abstract
`Engine` record capturing exactly the operations the widget calls,
together with the two boundary facts the proofs use (push appends to the
move stack; pop succeeds on a non-empty history).  A small concrete
engine (`SE`) instantiates the record for concrete witnesses.

Geometry is modelled over `Rat` (Qt's qreal coordinates); Python's
`int()` truncation is `pyInt`.  The animation progress step `0.05` is
modelled as the exact rational `1/20`.  Qt side effects that do not
touch the widget's logical state (repaints, cursor changes) are not
modelled; signal emissions, board mutations and timer transitions are
recorded in an event trace.
-/

namespace LichessBoard

/-- Piece kinds, mirroring python-chess piece types. -/
inductive PieceKind
  | pawn | knight | bishop | rook | queen | king
deriving DecidableEq, Repr

/-- A piece: kind plus colour (`true` = white, matching `chess.WHITE`). -/
structure Piece where
  kind : PieceKind
  color : Bool
deriving DecidableEq, Repr

/-- A move: from/to squares (0..63) plus optional promotion, mirroring
`chess.Move`. -/
structure Move where
  from_square : Nat
  to_square : Nat
  promotion : Option PieceKind := none
deriving DecidableEq, Repr

/-- The interface of the external rules engine as consumed by
`ChessBoardWidget`: the methods of `chess.Board` that `widget.py` calls,
plus the two boundary facts used in proofs (`Board.push` appends the move
to `move_stack`; `Board.pop` succeeds whenever the history is non-empty,
and raises `IndexError` — modelled as `none` — only on an empty one). -/
structure Engine (B : Type) where
  piece_at : B → Nat → Option Piece
  turn : B → Bool
  legal_moves : B → List Move
  move_stack : B → List Move
  is_castling : B → Move → Bool
  push : B → Move → B
  pop : B → Option B
  push_move_stack : ∀ b m, move_stack (push b m) = move_stack b ++ [m]
  pop_is_some : ∀ b, move_stack b ≠ [] → (pop b).isSome = true

/-- Python `int()` truncation towards zero, on rationals. -/
def pyInt (q : Rat) : Int :=
  if q < 0 then Int.ceil q else Int.floor q

/-- `ChessBoardWidget._get_board_rect`: the square board region centred
in a `w × h` widget; returns `(x, y, s)` with side `s = min w h`. -/
def get_board_rect (w h : Rat) : Rat × Rat × Rat :=
  (((w - min w h) / 2), ((h - min w h) / 2), min w h)

/-- `QRectF.contains` for the square rect `(x, y, s, s)`: true if the
point is inside or on the edge of the rectangle. -/
def rect_contains (x y s : Rat) (p : Rat × Rat) : Bool :=
  decide (x ≤ p.1) && decide (p.1 ≤ x + s) &&
    decide (y ≤ p.2) && decide (p.2 ≤ y + s)

/-- `ChessBoardWidget._pos_to_square`: pointer position to square index,
`none` outside the board rect.  `chess.square(file, rank_index)` is
`8 * rank_index + file`; the code passes `rank - 1` for the rank index. -/
def pos_to_square (flipped : Bool) (w h : Rat) (p : Rat × Rat) : Option Nat :=
  let r := get_board_rect w h
  if rect_contains r.1 r.2.1 r.2.2 p then
    let square_size := r.2.2 / 8
    let col := pyInt ((p.1 - r.1) / square_size)
    let row := pyInt ((p.2 - r.2.1) / square_size)
    if col < 0 ∨ col > 7 ∨ row < 0 ∨ row > 7 then none
    else
      let rf : Int × Int := if flipped then (row + 1, 7 - col) else (8 - row, col)
      some (8 * (rf.1 - 1) + rf.2).toNat
  else none

/-- `ChessBoardWidget._get_square_center`: centre point of a square,
for the given orientation and widget size. -/
def get_square_center (flipped : Bool) (w h : Rat) (square : Nat) : Rat × Rat :=
  let r := get_board_rect w h
  let square_size := r.2.2 / 8
  let rank := square / 8
  let file := square % 8
  let vis : Nat × Nat := if flipped then (rank, 7 - file) else (7 - rank, file)
  (r.1 + (vis.2 : Rat) * square_size + square_size / 2,
   r.2.1 + (vis.1 : Rat) * square_size + square_size / 2)

/-- One animation segment, as stored in `_animating_pieces`:
`(piece, start point, end point, square excluded from static render)`. -/
abbrev Segment : Type := Piece × (Rat × Rat) × (Rat × Rat) × Nat

/-- The logical state of `ChessBoardWidget`: board handle, orientation,
selection/drag state, animation state and widget size. -/
structure WidgetState (B : Type) where
  board : B
  flipped : Bool
  selected_square : Option Nat
  dragged_square : Option Nat
  drag_pos : Rat × Rat
  is_dragging : Bool
  legal_moves : List Move
  hover_square : Option Nat
  animating_pieces : List Segment
  anim_timer_active : Bool
  anim_progress : Rat
  width : Rat
  height : Rat
deriving DecidableEq

/-- Observable effects: board mutations, emitted signals and timer
transitions.  `move_undone` is the signal `tests/test_undo_signal.py`
connects to; it is part of the vocabulary so its absence from every
trace can be stated. -/
inductive Event
  | board_push (m : Move)
  | board_pop (m : Move)
  | move_played (m : Move) (interactive : Bool)
  | move_undone (m : Move)
  | timer_start
  | timer_stop
  | tick_advance
deriving DecidableEq, Repr

/-- `ChessBoardWidget._clear_selection`. -/
def clear_selection {B : Type} (st : WidgetState B) : WidgetState B :=
  { st with selected_square := none, dragged_square := none,
            is_dragging := false, legal_moves := [] }

/-- `ChessBoardWidget._find_move`: first legal move matching the given
from/to squares. -/
def find_move {B : Type} (e : Engine B) (b : B) (from_sq to_sq : Nat) :
    Option Move :=
  (e.legal_moves b).find?
    (fun m => m.from_square == from_sq && m.to_square == to_sq)

/-- The rook source/destination resolver hard-coded in `play_move`
(lines 379-388): a function of the king's destination square alone.
Squares: G1 = 6, C1 = 2, G8 = 62, C8 = 58; rook pairs H1→F1, A1→D1,
H8→F8, A8→D8. -/
def rook_squares_for (king_to : Nat) : Option (Nat × Nat) :=
  if king_to = 6 then some (7, 5)
  else if king_to = 2 then some (0, 3)
  else if king_to = 62 then some (63, 61)
  else if king_to = 58 then some (56, 59)
  else none

/-- The main-piece animation segment of `play_move` (lines 366-374):
the piece currently on `from_square` animates to `to_square`, excluding
`to_square` from the static render. -/
def main_segments {B : Type} (e : Engine B) (b : B) (flipped : Bool)
    (w h : Rat) (m : Move) : List Segment :=
  match e.piece_at b m.from_square with
  | some p => [(p, get_square_center flipped w h m.from_square,
                get_square_center flipped w h m.to_square, m.to_square)]
  | none => []

/-- The rook animation segment of `play_move` (lines 377-398): resolved
from the king's destination; no segment when the resolver yields no
pair or no rook sits on the resolved source square. -/
def rook_segments {B : Type} (e : Engine B) (b : B) (flipped : Bool)
    (w h : Rat) (king_to : Nat) : List Segment :=
  match rook_squares_for king_to with
  | some rfrt =>
    match e.piece_at b rfrt.1 with
    | some r => [(r, get_square_center flipped w h rfrt.1,
                  get_square_center flipped w h rfrt.2, rfrt.2)]
    | none => []
  | none => []

/-- All animation segments built by `play_move` for a forward move:
main piece plus, for castling moves, the rook segment. -/
def anim_segments {B : Type} (e : Engine B) (b : B) (flipped : Bool)
    (w h : Rat) (m : Move) : List Segment :=
  main_segments e b flipped w h m ++
    (if e.is_castling b m then rook_segments e b flipped w h m.to_square
     else [])

/-- `ChessBoardWidget.play_move` (lines 338-411): clears selection,
stops any in-flight animation, optionally builds animation segments from
the pre-push board, pushes the move, emits `move_played`, and (when
animating) resets progress to 0 and starts the tick timer.  The returned
trace records the effects in program order. -/
def play_move {B : Type} (e : Engine B) (st0 : WidgetState B) (m : Move)
    (animate : Bool) (interactive : Bool) : WidgetState B × List Event :=
  let st1 := clear_selection st0
  let stopped :=
    if st1.anim_timer_active then
      ({ st1 with anim_timer_active := false, animating_pieces := [] },
       [Event.timer_stop])
    else (st1, ([] : List Event))
  let st2 := stopped.1
  if animate then
    let segs := anim_segments e st2.board st2.flipped st2.width st2.height m
    ({ st2 with animating_pieces := segs,
                board := e.push st2.board m,
                anim_progress := 0,
                anim_timer_active := true },
     stopped.2 ++ [Event.board_push m, Event.move_played m interactive,
                   Event.timer_start])
  else
    ({ st2 with board := e.push st2.board m },
     stopped.2 ++ [Event.board_push m, Event.move_played m interactive])

/-- `ChessBoardWidget._make_interactive_move`: the only move-finalising
path reachable from pointer gestures; always `animate=False`,
`interactive=True`. -/
def make_interactive_move {B : Type} (e : Engine B) (st : WidgetState B)
    (m : Move) : WidgetState B × List Event :=
  play_move e st m false true

/-- The animation segments `undo_move` builds (lines 427-472): the piece
now on `to_square` animates back to `from_square`; a king displaced by
two files additionally triggers the rook resolver, with the rook
animating from its castled square back home. -/
def undo_segments {B : Type} (e : Engine B) (b : B) (flipped : Bool)
    (w h : Rat) (m : Move) : List Segment :=
  match e.piece_at b m.to_square with
  | none => []
  | some p =>
    (p, get_square_center flipped w h m.to_square,
     get_square_center flipped w h m.from_square, m.from_square) ::
    (if p.kind = PieceKind.king ∧
        ((m.to_square : Int) - (m.from_square : Int)).natAbs = 2 then
       match rook_squares_for m.to_square with
       | some rfrt =>
         match e.piece_at b rfrt.2 with
         | some r => [(r, get_square_center flipped w h rfrt.2,
                       get_square_center flipped w h rfrt.1, rfrt.1)]
         | none => []
       | none => []
     else [])

/-- `ChessBoardWidget.undo_move` (lines 413-483): clears selection,
stops any in-flight animation, then returns early when the history is
empty; otherwise peeks the last move, optionally builds undo animation
segments, pops the board and (when animating) restarts the timer.
`none` models an uncaught engine exception (unreachable: the guard
precedes every `peek`/`pop`). -/
def undo_move {B : Type} (e : Engine B) (st0 : WidgetState B)
    (animate : Bool) : Option (WidgetState B × List Event) :=
  let st1 := clear_selection st0
  let stopped :=
    if st1.anim_timer_active then
      ({ st1 with anim_timer_active := false, animating_pieces := [] },
       [Event.timer_stop])
    else (st1, ([] : List Event))
  let st2 := stopped.1
  if e.move_stack st2.board = [] then
    some (st2, stopped.2)
  else
    match (e.move_stack st2.board).getLast? with
    | none => none
    | some m =>
      if animate then
        let segs := undo_segments e st2.board st2.flipped st2.width st2.height m
        match e.pop st2.board with
        | none => none
        | some b2 =>
          some ({ st2 with animating_pieces := segs, board := b2,
                           anim_progress := 0, anim_timer_active := true },
                stopped.2 ++ [Event.board_pop m, Event.timer_start])
      else
        match e.pop st2.board with
        | none => none
        | some b2 =>
          some ({ st2 with board := b2 }, stopped.2 ++ [Event.board_pop m])

/-- `ChessBoardWidget._update_animation`: one tick; advances progress by
the fixed step (0.05 = 1/20), and on reaching 1.0 clamps, stops the
timer and clears the segments. -/
def update_animation {B : Type} (st : WidgetState B) :
    WidgetState B × List Event :=
  if 1 ≤ st.anim_progress + 1 / 20 then
    ({ st with anim_progress := 1, anim_timer_active := false,
               animating_pieces := [] },
     [Event.tick_advance, Event.timer_stop])
  else
    ({ st with anim_progress := st.anim_progress + 1 / 20 },
     [Event.tick_advance])

/-- `ChessBoardWidget.mousePressEvent` (lines 205-237): ignore non-left
buttons; outside the board clear selection; a click on a legal target of
the current selection finalises that move; a click on a piece of the
side to move selects it, recomputes the legal-move list and starts
dragging; anything else clears the selection. -/
def mousePressEvent {B : Type} (e : Engine B) (st : WidgetState B)
    (pos : Rat × Rat) (left_button : Bool) : WidgetState B × List Event :=
  if left_button then
    match pos_to_square st.flipped st.width st.height pos with
    | none => (clear_selection st, [])
    | some square =>
      let sel_move :=
        match st.selected_square with
        | some sel => find_move e st.board sel square
        | none => none
      match sel_move with
      | some m =>
        let r := make_interactive_move e st m
        (clear_selection r.1, r.2)
      | none =>
        match e.piece_at st.board square with
        | some p =>
          if p.color == e.turn st.board then
            ({ st with selected_square := some square,
                       dragged_square := some square,
                       is_dragging := true,
                       drag_pos := pos,
                       legal_moves := (e.legal_moves st.board).filter
                         (fun m => m.from_square == square) }, [])
          else (clear_selection st, [])
        | none => (clear_selection st, [])
  else (st, [])

/-- `ChessBoardWidget.mouseMoveEvent`: updates the hover square, and the
drag position while dragging. -/
def mouseMoveEvent {B : Type} (st : WidgetState B) (pos : Rat × Rat) :
    WidgetState B × List Event :=
  let st1 := { st with
    hover_square := pos_to_square st.flipped st.width st.height pos }
  if st1.is_dragging then ({ st1 with drag_pos := pos }, []) else (st1, [])

/-- `ChessBoardWidget.mouseReleaseEvent` (lines 252-281): no-op unless
dragging; a release on a legal target of the dragged piece finalises the
move; otherwise (same square, invalid target, or outside the board) only
dragging stops — the selection is kept. -/
def mouseReleaseEvent {B : Type} (e : Engine B) (st : WidgetState B)
    (pos : Rat × Rat) : WidgetState B × List Event :=
  if st.is_dragging then
    match pos_to_square st.flipped st.width st.height pos,
          st.dragged_square with
    | some sq, some dsq =>
      match find_move e st.board dsq sq with
      | some m =>
        let r := make_interactive_move e st m
        (clear_selection r.1, r.2)
      | none => ({ st with is_dragging := false }, [])
    | _, _ => ({ st with is_dragging := false }, [])
  else (st, [])

/-- `ChessBoardWidget.set_board`: replaces the board and clears the
selection fields (note: the code does not reset `_is_dragging`). -/
def set_board {B : Type} (st : WidgetState B) (b : B) : WidgetState B :=
  { st with board := b, selected_square := none, dragged_square := none,
            legal_moves := [] }

/-- `ChessBoardWidget.set_flipped`. -/
def set_flipped {B : Type} (st : WidgetState B) (f : Bool) : WidgetState B :=
  { st with flipped := f }

/-- The commands through which a host or user drives the widget: the
three pointer handlers, the four host-callable operations, and the
timer tick (delivered by Qt only while the timer is active). -/
inductive Cmd (B : Type)
  | press (pos : Rat × Rat) (left : Bool)
  | moveTo (pos : Rat × Rat)
  | release (pos : Rat × Rat)
  | play (m : Move) (animate : Bool)
  | undo (animate : Bool)
  | setBoardCmd (b : B)
  | setFlippedCmd (f : Bool)
  | tick

/-- One event-loop step: dispatch a command to the corresponding
handler.  A tick fires only while the timer is active (Qt `QTimer`
semantics). -/
def step {B : Type} (e : Engine B) (st : WidgetState B) :
    Cmd B → WidgetState B × List Event
  | .press pos left => mousePressEvent e st pos left
  | .moveTo pos => mouseMoveEvent st pos
  | .release pos => mouseReleaseEvent e st pos
  | .play m a => play_move e st m a false
  | .undo a => (undo_move e st a).getD (st, [])
  | .setBoardCmd b => (set_board st b, [])
  | .setFlippedCmd f => (set_flipped st f, [])
  | .tick => if st.anim_timer_active then update_animation st else (st, [])

/-- Run a command sequence from a state, concatenating the event traces
in execution order. -/
def run {B : Type} (e : Engine B) :
    WidgetState B → List (Cmd B) → WidgetState B × List Event
  | st, [] => (st, [])
  | st, c :: cs =>
    let r := step e st c
    let r2 := run e r.1 cs
    (r2.1, r.2 ++ r2.2)

/-- Iterate the tick step `n` times. -/
def ticks {B : Type} (e : Engine B) : Nat → WidgetState B → WidgetState B
  | 0, st => st
  | n + 1, st => (step e (ticks e n st) Cmd.tick).1

/-- True exactly on `tick_advance` events. -/
def is_tick (ev : Event) : Bool :=
  match ev with
  | .tick_advance => true
  | _ => false

/-- True exactly on `timer_start` events. -/
def is_timer_start (ev : Event) : Bool :=
  match ev with
  | .timer_start => true
  | _ => false

/-- True exactly on `move_undone` events. -/
def is_move_undone (ev : Event) : Bool :=
  match ev with
  | .move_undone _ => true
  | _ => false

/-- The selection invariant of the spec: the stored legal-move list is
exactly the engine's legal moves from the selected square, and empty
when nothing is selected. -/
def SelInv {B : Type} (e : Engine B) (st : WidgetState B) : Prop :=
  st.legal_moves =
    match st.selected_square with
    | none => []
    | some sq => (e.legal_moves st.board).filter
        (fun m => m.from_square == sq)

/-- An invalid drop for `mouseReleaseEvent`: the resolved square is
outside the board, or no dragged square is recorded, or no legal move
of the dragged piece reaches the resolved square. -/
def invalid_drop {B : Type} (e : Engine B) (st : WidgetState B)
    (pos : Rat × Rat) : Prop :=
  match pos_to_square st.flipped st.width st.height pos,
        st.dragged_square with
  | some sq, some dsq => find_move e st.board dsq sq = none
  | _, _ => True

/-!
A concrete rules engine for witnesses.  The spec treats the rules
engine as an external collaborator and requires the widget to work with
any conformant engine; the theorems below are proved for every
`Engine`, and this minimal instance (positions as assoc lists, legality
and castling detection as per-position data, push as piece relocation,
pop as snapshot restore) supplies the concrete inputs the witnesses and
counterexamples evaluate. -/

/-- A snapshot of a position for the simple engine: pieces, side to
move, and the externally supplied legal/castling move data. -/
structure BoardCore where
  pieces : List (Nat × Piece)
  turn : Bool
  legal : List Move
  castling : List Move
deriving DecidableEq, Repr

/-- A simple-engine board: current snapshot plus the push history
(each entry remembers the move and the pre-push snapshot). -/
structure SBoard where
  core : BoardCore
  hist : List (Move × BoardCore)
deriving DecidableEq, Repr

/-- Piece lookup in a snapshot. -/
def core_piece_at (c : BoardCore) (sq : Nat) : Option Piece :=
  (c.pieces.find? (fun pr => pr.1 == sq)).map Prod.snd

/-- Applying a move to a snapshot: relocate the piece and flip the
turn.  The post-move legal/castling data is left empty — legality is
external data, not recomputed here. -/
def core_apply (c : BoardCore) (m : Move) : BoardCore :=
  match core_piece_at c m.from_square with
  | none => { c with turn := !c.turn, legal := [], castling := [] }
  | some p =>
    { pieces := (m.to_square, p) ::
        c.pieces.filter
          (fun pr => !(pr.1 == m.from_square) && !(pr.1 == m.to_square)),
      turn := !c.turn, legal := [], castling := [] }

/-- Simple-engine push: apply the move and append to the history. -/
def sb_push (b : SBoard) (m : Move) : SBoard :=
  { core := core_apply b.core m, hist := b.hist ++ [(m, b.core)] }

/-- Simple-engine pop: restore the last snapshot; `none` on an empty
history (python-chess raises `IndexError` there). -/
def sb_pop (b : SBoard) : Option SBoard :=
  match b.hist.getLast? with
  | none => none
  | some pr => some { core := pr.2, hist := b.hist.dropLast }

/-- The simple engine instance. -/
def SE : Engine SBoard where
  piece_at := fun b sq => core_piece_at b.core sq
  turn := fun b => b.core.turn
  legal_moves := fun b => b.core.legal
  move_stack := fun b => b.hist.map Prod.fst
  is_castling := fun b m => b.core.castling.contains m
  push := sb_push
  pop := sb_pop
  push_move_stack := by
    intro b m
    simp [sb_push]
  pop_is_some := by
    intro b hb
    have hh : b.hist ≠ [] := by
      intro h
      exact hb (by simp [h])
    rcases List.exists_mem_of_ne_nil _ hh with ⟨x, _⟩
    cases hget : b.hist.getLast? with
    | none =>
      exact absurd (List.getLast?_eq_none_iff.mp hget) hh
    | some pr => simp [sb_pop, hget]

/-- White pawn / king / rook and black rook / king pieces. -/
def wP : Piece := ⟨PieceKind.pawn, true⟩

/-- White king. -/
def wK : Piece := ⟨PieceKind.king, true⟩

/-- White rook. -/
def wR : Piece := ⟨PieceKind.rook, true⟩

/-- Black rook. -/
def bR : Piece := ⟨PieceKind.rook, false⟩

/-- Black king. -/
def bK : Piece := ⟨PieceKind.king, false⟩

/-- The move e2e4 (squares 12 → 28). -/
def mv_e2e4 : Move := ⟨12, 28, none⟩

/-- The move e7e5 (squares 52 → 36). -/
def mv_e7e5 : Move := ⟨52, 36, none⟩

/-- A fresh simple board: white pawn on e2, kings on e1/e8; the only
legal move supplied is e2e4. -/
def b0 : SBoard :=
  ⟨⟨[(12, wP), (4, wK), (60, bK)], true, [mv_e2e4], []⟩, []⟩

/-- A widget state over a given board: nothing selected, no animation,
400 × 400 widget — the state of a freshly constructed widget. -/
def mkState (b : SBoard) : WidgetState SBoard :=
  { board := b, flipped := false, selected_square := none,
    dragged_square := none, drag_pos := (0, 0), is_dragging := false,
    legal_moves := [], hover_square := none, animating_pieces := [],
    anim_timer_active := false, anim_progress := 0,
    width := 400, height := 400 }

/-- A state that is mid-drag on e2 (selected and dragged square 12,
legal-move list holding e2e4), as produced by a press on e2. -/
def st_drag : WidgetState SBoard :=
  { mkState b0 with selected_square := some 12, dragged_square := some 12,
                    is_dragging := true, legal_moves := [mv_e2e4] }

/-- The widget state after `play_move(e2e4, animate=False)` from the
fresh board: one move on the history. -/
def st_after_e2e4 : WidgetState SBoard :=
  { mkState b0 with board := sb_push b0 mv_e2e4 }

/-- A position in which white is in check: white king e1 (4), white
pawn a2 (8), black rook e8 (60), black king h8 (63).  The legal moves
are the four king steps out of check; the pawn pushes a2a3/a2a4 are
pseudo-legal but illegal (they leave the king in check) — python-chess
`Board.push` applies such a move without complaint. -/
def b_check : SBoard :=
  ⟨⟨[(4, wK), (8, wP), (60, bR), (63, bK)], true,
    [⟨4, 3, none⟩, ⟨4, 11, none⟩, ⟨4, 5, none⟩, ⟨4, 13, none⟩], []⟩, []⟩

/-- The illegal pawn push a2a3 (8 → 16) in `b_check`. -/
def mv_illegal : Move := ⟨8, 16, none⟩

/-- A castling position: white king e1 (4), rook h1 (7); the kingside
castling move e1g1 is legal and flagged as castling. -/
def b_castle : SBoard :=
  ⟨⟨[(4, wK), (7, wR), (60, bK)], true,
    [⟨4, 6, none⟩], [⟨4, 6, none⟩]⟩, []⟩

/-- The kingside castling move e1g1. -/
def mv_castle : Move := ⟨4, 6, none⟩

/-- The ordering property of an animated `play_move` inside a run: the
trace of the surrounding run splits around the `play` step; within that
step the board push strictly precedes the `move_played` emission; the
step itself performs no animation tick; and tick events can only come
from later `tick` commands — hence every tick of the new animation
follows the emission in the flattened trace. -/
def c1Prop {B : Type} (e : Engine B) (st : WidgetState B)
    (cs1 cs2 : List (Cmd B)) (m : Move) : Prop :=
  ((run e st (cs1 ++ Cmd.play m true :: cs2)).2
     = (run e st cs1).2 ++ (step e (run e st cs1).1 (Cmd.play m true)).2
       ++ (run e (step e (run e st cs1).1 (Cmd.play m true)).1 cs2).2) ∧
  (∃ i j, i < j ∧
    (step e (run e st cs1).1 (Cmd.play m true)).2.get? i
      = some (Event.board_push m) ∧
    (step e (run e st cs1).1 (Cmd.play m true)).2.get? j
      = some (Event.move_played m false)) ∧
  ((step e (run e st cs1).1 (Cmd.play m true)).2.any is_tick = false) ∧
  (∀ (st2 : WidgetState B) (c : Cmd B),
    (step e st2 c).2.any is_tick = true → c = Cmd.tick)

/-- The interruption property: playing `m2` animated while the `m1`
animation is in flight cancels the old task (timer stop, progress still
below 1), resets progress to 0 with only `m2`'s segments installed,
leaves the board with both moves applied in order, and twenty ticks
later the newest animation has completed with the timer inactive and
the segment list empty. -/
def c2Prop {B : Type} (e : Engine B) (st : WidgetState B)
    (m1 m2 : Move) (k : Nat) : Prop :=
  Event.timer_stop ∈
    (play_move e (ticks e k (play_move e st m1 true false).1) m2 true false).2 ∧
  (ticks e k (play_move e st m1 true false).1).anim_progress < 1 ∧
  (play_move e (ticks e k (play_move e st m1 true false).1)
      m2 true false).1.anim_progress = 0 ∧
  (play_move e (ticks e k (play_move e st m1 true false).1)
      m2 true false).1.animating_pieces
    = anim_segments e
        (ticks e k (play_move e st m1 true false).1).board
        (ticks e k (play_move e st m1 true false).1).flipped
        (ticks e k (play_move e st m1 true false).1).width
        (ticks e k (play_move e st m1 true false).1).height m2 ∧
  (play_move e (ticks e k (play_move e st m1 true false).1)
      m2 true false).1.board = e.push (e.push st.board m1) m2 ∧
  (ticks e 20 (play_move e (ticks e k (play_move e st m1 true false).1)
      m2 true false).1).anim_timer_active = false ∧
  (ticks e 20 (play_move e (ticks e k (play_move e st m1 true false).1)
      m2 true false).1).animating_pieces = [] ∧
  (ticks e 20 (play_move e (ticks e k (play_move e st m1 true false).1)
      m2 true false).1).anim_progress = 1

/-- The castling-animation property: an animated castling `play_move`
installs exactly the main segment plus the rook segment resolved from
the king's destination square; the resolver never produces a rook
segment whose source equals its destination (it yields no pair at all
for the free-castling encodings, and each hard-coded pair is proper);
when it yields no pair, the move animates without any rook segment. -/
def c4Prop {B : Type} (e : Engine B) (st : WidgetState B) (m : Move) :
    Prop :=
  (play_move e st m true false).1.animating_pieces
    = main_segments e st.board st.flipped st.width st.height m
      ++ rook_segments e st.board st.flipped st.width st.height m.to_square ∧
  (∀ a b, rook_squares_for m.to_square = some (a, b) → a ≠ b) ∧
  (rook_squares_for m.to_square = none →
    (play_move e st m true false).1.animating_pieces
      = main_segments e st.board st.flipped st.width st.height m)

/-- The selection-invariant property: every run keeps the stored
legal-move list in sync with the selection (recomputed on selection,
empty when nothing is selected); the stored list only ever holds legal
moves from the selected square; and a press on a square without a
piece of the side to move (when it does not complete a move of the
current selection) never populates the list and never starts a drag. -/
def c9Prop {B : Type} (e : Engine B) (st : WidgetState B) : Prop :=
  (∀ cs, SelInv e (run e st cs).1) ∧
  (∀ sq m, st.selected_square = some sq → m ∈ st.legal_moves →
     m ∈ e.legal_moves st.board ∧ m.from_square = sq) ∧
  (∀ pos sq, pos_to_square st.flipped st.width st.height pos = some sq →
     (∀ p, e.piece_at st.board sq = some p → ¬ p.color = e.turn st.board) →
     (∀ sel, st.selected_square = some sel →
        find_move e st.board sel sq = none) →
     (mousePressEvent e st pos true).1.is_dragging = false ∧
     (mousePressEvent e st pos true).1.legal_moves = [])

/-!  Helper lemmas about `play_move`, `undo_move`, ticks and runs. -/

/-- The event trace of `play_move`, in program order: an optional
`timer_stop` (cancelling an in-flight animation), the board push, the
`move_played` emission, and — when animating — the timer start. -/
theorem play_move_trace {B : Type} (e : Engine B) (st0 : WidgetState B)
    (m : Move) (a i : Bool) :
    (play_move e st0 m a i).2 =
      (if st0.anim_timer_active then [Event.timer_stop] else []) ++
      [Event.board_push m, Event.move_played m i] ++
      (if a then [Event.timer_start] else []) := by
  by_cases ht : st0.anim_timer_active <;> by_cases ha : a <;>
    simp [play_move, clear_selection, ht, ha]

/-- `play_move` pushes the given move unconditionally — there is no
legality check on this path. -/
theorem play_move_board {B : Type} (e : Engine B) (st0 : WidgetState B)
    (m : Move) (a i : Bool) :
    (play_move e st0 m a i).1.board = e.push st0.board m := by
  by_cases ht : st0.anim_timer_active <;> by_cases ha : a <;>
    simp [play_move, clear_selection, ht, ha]

/-- `play_move` leaves the selection cleared. -/
theorem play_move_clears {B : Type} (e : Engine B) (st0 : WidgetState B)
    (m : Move) (a i : Bool) :
    (play_move e st0 m a i).1.selected_square = none ∧
    (play_move e st0 m a i).1.legal_moves = [] := by
  by_cases ht : st0.anim_timer_active <;> by_cases ha : a <;>
    simp [play_move, clear_selection, ht, ha]

/-- The timer is active after `play_move` exactly when the move was
animated. -/
theorem play_move_timer {B : Type} (e : Engine B) (st0 : WidgetState B)
    (m : Move) (a i : Bool) :
    (play_move e st0 m a i).1.anim_timer_active = a := by
  by_cases ht : st0.anim_timer_active <;> by_cases ha : a <;>
    simp [play_move, clear_selection, ht, ha]

/-- An animated `play_move` installs exactly the segments built from
the pre-push board, and resets the progress to 0. -/
theorem play_move_segments {B : Type} (e : Engine B) (st0 : WidgetState B)
    (m : Move) (i : Bool) :
    (play_move e st0 m true i).1.animating_pieces =
      anim_segments e st0.board st0.flipped st0.width st0.height m ∧
    (play_move e st0 m true i).1.anim_progress = 0 := by
  by_cases ht : st0.anim_timer_active <;>
    simp [play_move, clear_selection, ht]

/-- A non-animated `play_move` never holds new segments: the list is
either cleared or untouched. -/
theorem play_move_no_new_segments {B : Type} (e : Engine B)
    (st0 : WidgetState B) (m : Move) (i : Bool) :
    (play_move e st0 m false i).1.animating_pieces = [] ∨
    (play_move e st0 m false i).1.animating_pieces = st0.animating_pieces := by
  by_cases ht : st0.anim_timer_active <;>
    simp [play_move, clear_selection, ht]

/-- `play_move`'s trace never contains a tick event. -/
theorem play_move_no_tick {B : Type} (e : Engine B) (st0 : WidgetState B)
    (m : Move) (a i : Bool) :
    (play_move e st0 m a i).2.any is_tick = false := by
  rw [play_move_trace]
  by_cases ht : st0.anim_timer_active <;> by_cases ha : a <;>
    simp [ht, ha, is_tick]

/-- A non-animated `play_move` never starts the timer. -/
theorem play_move_false_no_start {B : Type} (e : Engine B)
    (st0 : WidgetState B) (m : Move) (i : Bool) :
    (play_move e st0 m false i).2.any is_timer_start = false := by
  rw [play_move_trace]
  by_cases ht : st0.anim_timer_active <;> simp [ht, is_timer_start]

/-- The trace of `mousePressEvent` is empty or comes from an
`animate=False, interactive=True` call to `play_move`. -/
theorem press_trace {B : Type} (e : Engine B) (st : WidgetState B)
    (pos : Rat × Rat) (l : Bool) :
    (mousePressEvent e st pos l).2 = [] ∨
    ∃ m, (mousePressEvent e st pos l).2 = (play_move e st m false true).2 := by
  unfold mousePressEvent make_interactive_move
  by_cases hl : l
  · simp only [hl, if_true]
    cases hsq : pos_to_square st.flipped st.width st.height pos with
    | none => simp
    | some square =>
      simp only
      cases hsel : (match st.selected_square with
        | some sel => find_move e st.board sel square
        | none => none) with
      | some m =>
        refine Or.inr ⟨m, ?_⟩
        simp [hsel]
      | none =>
        cases hp : e.piece_at st.board square with
        | some p =>
          by_cases hc : p.color == e.turn st.board <;> simp [hsel, hp, hc]
        | none => simp [hsel, hp]
  · simp [hl]

/-- The trace of `mouseReleaseEvent` is empty or comes from an
`animate=False, interactive=True` call to `play_move`. -/
theorem release_trace {B : Type} (e : Engine B) (st : WidgetState B)
    (pos : Rat × Rat) :
    (mouseReleaseEvent e st pos).2 = [] ∨
    ∃ m, (mouseReleaseEvent e st pos).2 = (play_move e st m false true).2 := by
  unfold mouseReleaseEvent make_interactive_move
  by_cases hd : st.is_dragging
  · simp only [hd, if_true]
    cases hsq : pos_to_square st.flipped st.width st.height pos with
    | none => simp
    | some sq =>
      cases hds : st.dragged_square with
      | none => simp
      | some dsq =>
        cases hf : find_move e st.board dsq sq with
        | some m =>
          refine Or.inr ⟨m, ?_⟩
          simp [hf]
        | none => simp [hf]
  · simp [hd]

/-- `undo_move` succeeds on an empty history: the board is untouched
and at most an internal `timer_stop` is produced — no pop, no signal,
no report of any kind to the caller. -/
theorem undo_move_empty {B : Type} (e : Engine B) (st : WidgetState B)
    (a : Bool) (h : e.move_stack st.board = []) :
    (undo_move e st a).map (fun r => (r.1.board, r.2)) =
      some (st.board,
        if st.anim_timer_active then [Event.timer_stop] else []) := by
  by_cases ht : st.anim_timer_active <;>
    simp [undo_move, clear_selection, ht, h]

/-- `undo_move` never fails: the empty-history guard precedes every
`peek` and `pop`, and the engine's `pop` succeeds on a non-empty
history. -/
theorem undo_move_isSome {B : Type} (e : Engine B) (st : WidgetState B)
    (a : Bool) : (undo_move e st a).isSome = true := by
  by_cases hemp : e.move_stack st.board = []
  · by_cases ht : st.anim_timer_active <;>
      simp [undo_move, clear_selection, ht, hemp]
  · have hlast : ((e.move_stack st.board).getLast?).isSome = true := by
      cases hg : (e.move_stack st.board).getLast? with
      | none => exact absurd (List.getLast?_eq_none_iff.mp hg) hemp
      | some m => rfl
    cases hg : (e.move_stack st.board).getLast? with
    | none => simp [hg] at hlast
    | some m =>
      have hpop : (e.pop st.board).isSome = true := e.pop_is_some _ hemp
      cases hpopEq : e.pop st.board with
      | none => simp [hpopEq] at hpop
      | some b2 =>
        by_cases ht : st.anim_timer_active <;> by_cases ha : a <;>
          simp [undo_move, clear_selection, ht, ha, hemp, hg, hpopEq]

/-- The code never emits a `move_undone` event on any `undo_move`
path. -/
theorem undo_move_no_move_undone {B : Type} (e : Engine B)
    (st : WidgetState B) (a : Bool) :
    ((undo_move e st a).map (fun r => r.2.any is_move_undone)).getD false
      = false := by
  by_cases hemp : e.move_stack st.board = []
  · by_cases ht : st.anim_timer_active <;>
      simp [undo_move, clear_selection, ht, hemp, is_move_undone]
  · cases hg : (e.move_stack st.board).getLast? with
    | none =>
      by_cases ht : st.anim_timer_active <;>
        simp [undo_move, clear_selection, ht, hemp, hg]
    | some m =>
      cases hpopEq : e.pop st.board with
      | none =>
        by_cases ht : st.anim_timer_active <;> by_cases ha : a <;>
          simp [undo_move, clear_selection, ht, ha, hemp, hg, hpopEq]
      | some b2 =>
        by_cases ht : st.anim_timer_active <;> by_cases ha : a <;>
          simp [undo_move, clear_selection, ht, ha, hemp, hg, hpopEq,
                is_move_undone]

/-- No `undo_move` path produces a tick event. -/
theorem undo_move_no_tick {B : Type} (e : Engine B)
    (st : WidgetState B) (a : Bool) :
    ((undo_move e st a).map (fun r => r.2.any is_tick)).getD false
      = false := by
  by_cases hemp : e.move_stack st.board = []
  · by_cases ht : st.anim_timer_active <;>
      simp [undo_move, clear_selection, ht, hemp, is_tick]
  · cases hg : (e.move_stack st.board).getLast? with
    | none =>
      by_cases ht : st.anim_timer_active <;>
        simp [undo_move, clear_selection, ht, hemp, hg]
    | some m =>
      cases hpopEq : e.pop st.board with
      | none =>
        by_cases ht : st.anim_timer_active <;> by_cases ha : a <;>
          simp [undo_move, clear_selection, ht, ha, hemp, hg, hpopEq]
      | some b2 =>
        by_cases ht : st.anim_timer_active <;> by_cases ha : a <;>
          simp [undo_move, clear_selection, ht, ha, hemp, hg, hpopEq,
                is_tick]

/-- A successful undo keeps the selection cleared. -/
theorem undo_move_clears {B : Type} (e : Engine B) (st : WidgetState B)
    (a : Bool) (r : WidgetState B × List Event)
    (h : undo_move e st a = some r) :
    r.1.selected_square = none ∧ r.1.legal_moves = [] := by
  by_cases hemp : e.move_stack st.board = []
  · by_cases ht : st.anim_timer_active <;>
      simp [undo_move, clear_selection, ht, hemp] at h <;>
      simp [← h, clear_selection]
  · cases hg : (e.move_stack st.board).getLast? with
    | none =>
      by_cases ht : st.anim_timer_active <;>
        simp [undo_move, clear_selection, ht, hemp, hg] at h
    | some m =>
      cases hpopEq : e.pop st.board with
      | none =>
        by_cases ht : st.anim_timer_active <;> by_cases ha : a <;>
          simp [undo_move, clear_selection, ht, ha, hemp, hg, hpopEq] at h
      | some b2 =>
        by_cases ht : st.anim_timer_active <;> by_cases ha : a <;>
          simp [undo_move, clear_selection, ht, ha, hemp, hg, hpopEq] at h <;>
          simp [← h, clear_selection]

/-- Traces concatenate in execution order when runs are split. -/
theorem run_append {B : Type} (e : Engine B) (xs ys : List (Cmd B))
    (st : WidgetState B) :
    run e st (xs ++ ys) =
      ((run e (run e st xs).1 ys).1,
       (run e st xs).2 ++ (run e (run e st xs).1 ys).2) := by
  induction xs generalizing st with
  | nil => simp [run]
  | cons c cs ih => simp [run, ih, List.append_assoc]

/-- A tick while the timer is inactive does nothing (Qt delivers no
timeout from a stopped timer). -/
theorem step_tick_inactive {B : Type} (e : Engine B) (st : WidgetState B)
    (h : st.anim_timer_active = false) : step e st Cmd.tick = (st, []) := by
  simp [step, h]

/-- A tick strictly below completion only advances the progress. -/
theorem step_tick_active_lt {B : Type} (e : Engine B) (st : WidgetState B)
    (h : st.anim_timer_active = true)
    (h2 : st.anim_progress + 1 / 20 < 1) :
    (step e st Cmd.tick).1 =
      { st with anim_progress := st.anim_progress + 1 / 20 } := by
  have hstep : step e st Cmd.tick = update_animation st := by simp [step, h]
  rw [hstep]
  unfold update_animation
  rw [if_neg (not_le.mpr h2)]

/-- A tick reaching 1.0 clamps the progress, stops the timer and clears
the segments. -/
theorem step_tick_active_ge {B : Type} (e : Engine B) (st : WidgetState B)
    (h : st.anim_timer_active = true)
    (h2 : 1 ≤ st.anim_progress + 1 / 20) :
    (step e st Cmd.tick).1 =
      { st with anim_progress := 1, anim_timer_active := false,
                animating_pieces := [] } := by
  have hstep : step e st Cmd.tick = update_animation st := by simp [step, h]
  rw [hstep]
  unfold update_animation
  rw [if_pos h2]

/-- Ticks never touch the board handle. -/
theorem step_tick_board {B : Type} (e : Engine B) (st : WidgetState B) :
    (step e st Cmd.tick).1.board = st.board := by
  by_cases h : st.anim_timer_active
  · by_cases h2 : (1 : Rat) ≤ st.anim_progress + 1 / 20
    · rw [step_tick_active_ge e st h h2]
    · rw [step_tick_active_lt e st h (not_le.mp h2)]
  · rw [step_tick_inactive e st (by simpa using h)]

/-- Iterated ticks never touch the board handle. -/
theorem ticks_board {B : Type} (e : Engine B) (n : Nat)
    (st : WidgetState B) : (ticks e n st).board = st.board := by
  induction n with
  | zero => rfl
  | succ k ih => rw [ticks, step_tick_board, ih]

/-- A tick never produces more than one `tick_advance`, and an inactive
timer produces none; the timer stays consistent: while the timer is
active the progress is below 1. -/
theorem step_tick_keeps_lt {B : Type} (e : Engine B) (st : WidgetState B)
    (h : st.anim_timer_active = true → st.anim_progress < 1) :
    (step e st Cmd.tick).1.anim_timer_active = true →
      (step e st Cmd.tick).1.anim_progress < 1 := by
  by_cases hA : st.anim_timer_active
  · by_cases h2 : (1 : Rat) ≤ st.anim_progress + 1 / 20
    · rw [step_tick_active_ge e st hA h2]
      intro hcontra
      simp at hcontra
    · rw [step_tick_active_lt e st hA (not_le.mp h2)]
      intro _
      simpa using not_le.mp h2
  · rw [step_tick_inactive e st (by simpa using hA)]
    exact h

/-- Iterated version of `step_tick_keeps_lt`. -/
theorem ticks_keeps_lt {B : Type} (e : Engine B) (n : Nat)
    (st : WidgetState B)
    (h : st.anim_timer_active = true → st.anim_progress < 1) :
    (ticks e n st).anim_timer_active = true →
      (ticks e n st).anim_progress < 1 := by
  induction n with
  | zero => exact h
  | succ k ih => exact step_tick_keeps_lt e (ticks e k st) ih

/-- From a freshly started animation (progress 0, timer on), `n ≤ 19`
ticks leave the timer running at progress `n/20` with the segments and
board untouched. -/
theorem ticks_progress {B : Type} (e : Engine B) (st : WidgetState B)
    (hA : st.anim_timer_active = true) (hP : st.anim_progress = 0)
    (n : Nat) (hn : n ≤ 19) :
    (ticks e n st).anim_timer_active = true ∧
    (ticks e n st).anim_progress = (n : Rat) / 20 ∧
    (ticks e n st).animating_pieces = st.animating_pieces ∧
    (ticks e n st).board = st.board := by
  induction n with
  | zero => exact ⟨hA, by simpa [ticks] using hP, rfl, rfl⟩
  | succ k ih =>
    have hk : k ≤ 19 := Nat.le_of_succ_le hn
    obtain ⟨ih1, ih2, ih3, ih4⟩ := ih hk
    have hlt : (ticks e k st).anim_progress + 1 / 20 < 1 := by
      rw [ih2, div_add_div_same, div_lt_one (by norm_num)]
      have hk1 : (k : Rat) + 1 ≤ 19 := by exact_mod_cast hn
      linarith
    have hstep := step_tick_active_lt e (ticks e k st) ih1 hlt
    rw [ticks, hstep]
    refine ⟨ih1, ?_, ih3, ih4⟩
    simp only [ih2]
    push_cast
    ring

/-- Twenty ticks from a freshly started animation complete it: the
progress clamps at 1, the timer stops and the segment list empties. -/
theorem ticks_complete {B : Type} (e : Engine B) (st : WidgetState B)
    (hA : st.anim_timer_active = true) (hP : st.anim_progress = 0) :
    (ticks e 20 st).anim_timer_active = false ∧
    (ticks e 20 st).animating_pieces = [] ∧
    (ticks e 20 st).anim_progress = 1 ∧
    (ticks e 20 st).board = st.board := by
  obtain ⟨h1, h2, _, h4⟩ := ticks_progress e st hA hP 19 (by norm_num)
  have hge : (1 : Rat) ≤ (ticks e 19 st).anim_progress + 1 / 20 := by
    rw [h2]
    norm_num
  have hstep := step_tick_active_ge e (ticks e 19 st) h1 hge
  have h20 : ticks e 20 st = (step e (ticks e 19 st) Cmd.tick).1 := rfl
  rw [h20, hstep]
  exact ⟨rfl, rfl, rfl, h4⟩

/-- Only the tick command can produce a `tick_advance` event. -/
theorem tick_only_from_tick {B : Type} (e : Engine B) (st : WidgetState B)
    (c : Cmd B) (h : (step e st c).2.any is_tick = true) : c = Cmd.tick := by
  cases c with
  | press pos l =>
    rcases press_trace e st pos l with h0 | ⟨m, hm⟩
    · simp [step, h0] at h
    · rw [show (step e st (Cmd.press pos l)).2
            = (mousePressEvent e st pos l).2 from rfl, hm,
          play_move_no_tick] at h
      exact absurd h (by simp)
  | moveTo pos =>
    have : (mouseMoveEvent st pos).2 = [] := by
      unfold mouseMoveEvent
      by_cases hd : st.is_dragging <;> simp [hd]
    simp [step, this] at h
  | release pos =>
    rcases release_trace e st pos with h0 | ⟨m, hm⟩
    · simp [step, h0] at h
    · rw [show (step e st (Cmd.release pos)).2
            = (mouseReleaseEvent e st pos).2 from rfl, hm,
          play_move_no_tick] at h
      exact absurd h (by simp)
  | play m a =>
    rw [show (step e st (Cmd.play m a)).2 = (play_move e st m a false).2
          from rfl, play_move_no_tick] at h
    exact absurd h (by simp)
  | undo a =>
    have hno := undo_move_no_tick e st a
    cases hu : undo_move e st a with
    | none => simp [step, hu] at h
    | some r =>
      rw [hu] at hno
      simp at hno
      simp [step, hu] at h
      obtain ⟨x, hx, hxt⟩ := h
      exact absurd hxt (by simp [hno x hx])
  | setBoardCmd b => simp [step] at h
  | setFlippedCmd f => simp [step] at h
  | tick => rfl

/-- States with nothing selected and an empty legal-move list satisfy
the selection invariant. -/
theorem selInv_of_cleared {B : Type} (e : Engine B) (st : WidgetState B)
    (h1 : st.selected_square = none) (h2 : st.legal_moves = []) :
    SelInv e st := by
  simp [SelInv, h1, h2]

/-- `clear_selection` establishes the selection invariant. -/
theorem selInv_clear {B : Type} (e : Engine B) (st : WidgetState B) :
    SelInv e (clear_selection st) := by
  simp [SelInv, clear_selection]

/-- Every event-loop step preserves the selection invariant. -/
theorem step_selInv {B : Type} (e : Engine B) (st : WidgetState B)
    (c : Cmd B) (h : SelInv e st) : SelInv e (step e st c).1 := by
  cases c with
  | press pos l =>
    show SelInv e (mousePressEvent e st pos l).1
    unfold mousePressEvent
    by_cases hl : l
    · simp only [hl, if_true]
      cases hsq : pos_to_square st.flipped st.width st.height pos with
      | none => exact selInv_clear e st
      | some square =>
        cases hsel : (match st.selected_square with
          | some sel => find_move e st.board sel square
          | none => none) with
        | some m =>
          simp only [hsel]
          exact selInv_clear e _
        | none =>
          cases hp : e.piece_at st.board square with
          | some p =>
            by_cases hc : p.color == e.turn st.board
            · simp only [hsel, hp, hc, if_true]
              simp [SelInv]
            · simp only [hsel, hp, hc, if_false]
              exact selInv_clear e st
          | none =>
            simp only [hsel, hp]
            exact selInv_clear e st
    · simpa [hl] using h
  | moveTo pos =>
    show SelInv e (mouseMoveEvent st pos).1
    unfold mouseMoveEvent
    by_cases hd : st.is_dragging <;> simpa [SelInv, hd] using h
  | release pos =>
    show SelInv e (mouseReleaseEvent e st pos).1
    unfold mouseReleaseEvent
    by_cases hd : st.is_dragging
    · simp only [hd, if_true]
      cases hsq : pos_to_square st.flipped st.width st.height pos with
      | none => simpa [SelInv] using h
      | some sq =>
        cases hds : st.dragged_square with
        | none => simpa [SelInv] using h
        | some dsq =>
          cases hf : find_move e st.board dsq sq with
          | some m =>
            simp only [hf]
            exact selInv_clear e _
          | none =>
            simp only [hf]
            simpa [SelInv] using h
    · simpa [hd] using h
  | play m a =>
    obtain ⟨h1, h2⟩ := play_move_clears e st m a false
    exact selInv_of_cleared e _ h1 h2
  | undo a =>
    show SelInv e ((undo_move e st a).getD (st, [])).1
    cases hu : undo_move e st a with
    | none => simpa using h
    | some r =>
      obtain ⟨h1, h2⟩ := undo_move_clears e st a r hu
      simpa using selInv_of_cleared e r.1 h1 h2
  | setBoardCmd b =>
    exact selInv_of_cleared e _ rfl rfl
  | setFlippedCmd f =>
    simpa [step, set_flipped, SelInv] using h
  | tick =>
    show SelInv e (if st.anim_timer_active then update_animation st
      else (st, [])).1
    by_cases ht : st.anim_timer_active
    · simp only [ht, if_true]
      unfold update_animation
      by_cases hp : (1 : Rat) ≤ st.anim_progress + 1 / 20
      · rw [if_pos hp]
        simpa [SelInv] using h
      · rw [if_neg hp]
        simpa [SelInv] using h
    · simpa [ht] using h

/-- Running any command sequence preserves the selection invariant. -/
theorem run_selInv {B : Type} (e : Engine B) (st : WidgetState B)
    (cs : List (Cmd B)) (h : SelInv e st) : SelInv e (run e st cs).1 := by
  induction cs generalizing st with
  | nil => simpa [run] using h
  | cons c cs ih => exact ih _ (step_selInv e st c h)

/-- Python truncation of `v + 1/2` for a natural `v` is `v`. -/
theorem pyInt_half (v : Nat) : pyInt ((v : Rat) + 1 / 2) = (v : Int) := by
  unfold pyInt
  rw [if_neg (not_lt.mpr (by positivity : (0 : Rat) ≤ (v : Rat) + 1 / 2))]
  rw [Int.floor_eq_iff]
  constructor
  · push_cast
    linarith
  · push_cast
    linarith

/-- The pointer-to-square map evaluated at the centre of the visual
cell `(vr, vc)` (row, column), for a non-degenerate board rect. -/
theorem pos_to_square_center_formula (flipped : Bool) (w h : Rat)
    (vr vc : Nat) (hvr : vr ≤ 7) (hvc : vc ≤ 7) (hpos : 0 < min w h) :
    pos_to_square flipped w h
      ((w - min w h) / 2 + (vc : Rat) * (min w h / 8) + (min w h / 8) / 2,
       (h - min w h) / 2 + (vr : Rat) * (min w h / 8) + (min w h / 8) / 2)
    = some (if flipped then 8 * vr + (7 - vc) else 8 * (7 - vr) + vc) := by
  have hq : (0 : Rat) < min w h / 8 := by positivity
  have hvc7 : (vc : Rat) ≤ 7 := by exact_mod_cast hvc
  have hvr7 : (vr : Rat) ≤ 7 := by exact_mod_cast hvr
  have hcontains : rect_contains ((w - min w h) / 2) ((h - min w h) / 2)
      (min w h)
      ((w - min w h) / 2 + (vc : Rat) * (min w h / 8) + (min w h / 8) / 2,
       (h - min w h) / 2 + (vr : Rat) * (min w h / 8) + (min w h / 8) / 2)
      = true := by
    simp only [rect_contains, Bool.and_eq_true, decide_eq_true_eq]
    refine ⟨⟨⟨?_, ?_⟩, ?_⟩, ?_⟩
    · nlinarith
    · nlinarith
    · nlinarith
    · nlinarith
  have hrelx : ((w - min w h) / 2 + (vc : Rat) * (min w h / 8)
      + (min w h / 8) / 2 - (w - min w h) / 2) / (min w h / 8)
      = (vc : Rat) + 1 / 2 := by
    field_simp
    ring
  have hrely : ((h - min w h) / 2 + (vr : Rat) * (min w h / 8)
      + (min w h / 8) / 2 - (h - min w h) / 2) / (min w h / 8)
      = (vr : Rat) + 1 / 2 := by
    field_simp
    ring
  unfold pos_to_square get_board_rect
  rw [if_pos hcontains]
  dsimp only
  rw [hrelx, hrely, pyInt_half, pyInt_half]
  rw [if_neg (by omega)]
  cases flipped with
  | true =>
    simp only [if_true]
    congr 1
    omega
  | false =>
    rw [if_neg (by simp : ¬ (false = true)),
        if_neg (by simp : ¬ (false = true))]
    congr 1
    omega

/-!  Claim theorems. -/

/-- C8: for every square `S` of the 64 squares, every orientation, and
every widget size with a non-degenerate board rectangle, mapping `S`'s
rendered centre (`_get_square_center`) back through `_pos_to_square`
yields `S`. -/
theorem c8_coordinate_round_trip (sq : Nat) (flipped : Bool) (w h : Rat)
    (hsq : sq < 64) (hpos : 0 < min w h) :
    pos_to_square flipped w h (get_square_center flipped w h sq)
      = some sq := by
  have hrank : sq / 8 ≤ 7 := by omega
  have hfile : sq % 8 ≤ 7 := by omega
  cases flipped with
  | true =>
    have hcenter : get_square_center true w h sq
        = ((w - min w h) / 2 + ((7 - sq % 8 : Nat) : Rat) * (min w h / 8)
             + (min w h / 8) / 2,
           (h - min w h) / 2 + ((sq / 8 : Nat) : Rat) * (min w h / 8)
             + (min w h / 8) / 2) := by
      rfl
    rw [hcenter,
        pos_to_square_center_formula true w h (sq / 8) (7 - sq % 8)
          hrank (by omega) hpos]
    rw [if_pos rfl]
    congr 1
    omega
  | false =>
    have hcenter : get_square_center false w h sq
        = ((w - min w h) / 2 + ((sq % 8 : Nat) : Rat) * (min w h / 8)
             + (min w h / 8) / 2,
           (h - min w h) / 2 + ((7 - sq / 8 : Nat) : Rat) * (min w h / 8)
             + (min w h / 8) / 2) := by
      rfl
    rw [hcenter,
        pos_to_square_center_formula false w h (7 - sq / 8) (sq % 8)
          (by omega) hfile hpos]
    rw [if_neg (by simp : ¬ (false = true))]
    congr 1
    omega

/-- C8 witness: the round trip at square e2 (12), unflipped, on a
400 × 300 widget. -/
theorem c8_witness :
    (12 < 64 ∧ (0 : Rat) < min 400 300) ∧
    pos_to_square false 400 300 (get_square_center false 400 300 12)
      = some 12 :=
  ⟨⟨by norm_num, by norm_num⟩,
   c8_coordinate_round_trip 12 false 400 300 (by norm_num) (by norm_num)⟩

/-- C3: a pointer release while dragging whose resolved square is not a
legal target of the dragged piece (including a release outside the
board) only clears the dragging flag: selection, dragged square, stored
legal moves and board are unchanged and no event is emitted. -/
theorem c3_invalid_drop_is_sticky {B : Type} (e : Engine B)
    (st : WidgetState B) (pos : Rat × Rat)
    (hd : st.is_dragging = true) (hi : invalid_drop e st pos) :
    mouseReleaseEvent e st pos = ({ st with is_dragging := false }, []) := by
  unfold invalid_drop at hi
  unfold mouseReleaseEvent
  rw [if_pos hd]
  cases hsq : pos_to_square st.flipped st.width st.height pos with
  | none => cases st.dragged_square <;> rfl
  | some sq =>
    cases hds : st.dragged_square with
    | none => rfl
    | some dsq =>
      rw [hsq, hds] at hi
      have hfm : find_move e st.board dsq sq = none := hi
      simp [hfm]

/-- A release resolved outside the board is an invalid drop. -/
theorem invalid_drop_of_outside {B : Type} (e : Engine B)
    (st : WidgetState B) (pos : Rat × Rat)
    (h : pos_to_square st.flipped st.width st.height pos = none) :
    invalid_drop e st pos := by
  unfold invalid_drop
  rw [h]
  cases st.dragged_square <;> trivial

/-- C3 witness: releasing outside the board while dragging from e2
leaves everything but the dragging flag unchanged. -/
theorem c3_witness :
    (st_drag.is_dragging = true ∧ invalid_drop SE st_drag (-10, -10)) ∧
    mouseReleaseEvent SE st_drag (-10, -10)
      = ({ st_drag with is_dragging := false }, []) := by
  have hP : ¬ ((400 - min (400 : Rat) 400) / 2 ≤ -10) := by
    norm_num
  have hc : rect_contains ((400 - min (400 : Rat) 400) / 2)
      ((400 - min (400 : Rat) 400) / 2) (min (400 : Rat) 400)
      ((-10 : Rat), (-10 : Rat)) = false := by
    unfold rect_contains
    simp [hP]
  have hnone : pos_to_square st_drag.flipped st_drag.width st_drag.height
      (-10, -10) = none := by
    show pos_to_square false 400 400 ((-10 : Rat), (-10 : Rat)) = none
    unfold pos_to_square get_board_rect
    dsimp only
    rw [hc]
    simp
  have hid : invalid_drop SE st_drag (-10, -10) :=
    invalid_drop_of_outside SE st_drag (-10, -10) hnone
  exact ⟨⟨rfl, hid⟩, c3_invalid_drop_is_sticky SE st_drag (-10, -10) rfl hid⟩

/-- C5 counterexample: at a concrete empty-history state the
empty-history undo produces no event at all and leaves the board handle
untouched — the caller receives no "nothing to undo" report through any
channel (no signal, no exception; the Python method returns `None` on
every path).  This falsifies the claim's "reported back to the caller"
part at an explicit input. -/
theorem c5_counterexample :
    SE.move_stack (mkState b0).board = [] ∧
    (undo_move SE (mkState b0) true).map (fun r => (r.1.board, r.2))
      = some ((mkState b0).board, []) := by
  constructor
  · rfl
  · decide

/-- C5 amended: calling `undo_move` with an empty history is a silent
no-op — it returns without any failure, the board position is
unchanged, and nothing beyond an internal timer stop is produced (in
particular no pop, no signal, no "nothing to undo" report). -/
theorem c5_empty_undo_silent_noop {B : Type} (e : Engine B)
    (st : WidgetState B) (a : Bool) (h : e.move_stack st.board = []) :
    (undo_move e st a).isSome = true ∧
    (undo_move e st a).map (fun r => (r.1.board, r.2))
      = some (st.board,
          if st.anim_timer_active then [Event.timer_stop] else []) :=
  ⟨undo_move_isSome e st a, undo_move_empty e st a h⟩

/-- C5 witness: the amended claim at the fresh board. -/
theorem c5_witness :
    SE.move_stack (mkState b0).board = [] ∧
    ((undo_move SE (mkState b0) true).isSome = true ∧
     (undo_move SE (mkState b0) true).map (fun r => (r.1.board, r.2))
       = some ((mkState b0).board,
           if (mkState b0).anim_timer_active then [Event.timer_stop]
           else [])) :=
  ⟨rfl, c5_empty_undo_silent_noop SE (mkState b0) true rfl⟩

/-- C6: no `undo_move` path emits `move_undone` — the widget does not
even define that signal, although `tests/test_undo_signal.py` connects
to `widget.move_undone` and asserts it fires once with the popped move.
The second conjunct evaluates the code at the test's own scenario
(play e2e4 without animation, then undo): the undo succeeds and its
whole observable trace is the board pop, with no `move_undone`. -/
theorem c6_undo_never_emits_move_undone :
    (∀ (B : Type) (e : Engine B) (st : WidgetState B) (a : Bool),
       ((undo_move e st a).map (fun r => r.2.any is_move_undone)).getD false
         = false) ∧
    (undo_move SE st_after_e2e4 false).map Prod.snd
      = some [Event.board_pop mv_e2e4] := by
  constructor
  · intro B e st a
    exact undo_move_no_move_undone e st a
  · decide

/-- C7 counterexample: in `b_check` white is in check and the pawn push
a2a3 is not in the legal-move list, yet `play_move` applies it: the
board changes, the move lands on the move stack, and the trace holds
only the push and the `move_played` emission — no rejection and no
fault signal of any kind. -/
theorem c7_counterexample :
    mv_illegal ∉ SE.legal_moves (mkState b_check).board ∧
    (play_move SE (mkState b_check) mv_illegal false false).1.board
      ≠ (mkState b_check).board ∧
    SE.move_stack
        (play_move SE (mkState b_check) mv_illegal false false).1.board
      = [mv_illegal] ∧
    (play_move SE (mkState b_check) mv_illegal false false).2
      = [Event.board_push mv_illegal,
         Event.move_played mv_illegal false] := by
  refine ⟨by decide, by decide, by decide, by decide⟩

/-- C7 amended: `play_move` performs no legality check.  Every supplied
move — legal or not — is pushed onto the board (it lands on the move
stack) and `move_played` is emitted; an illegal move is neither
rejected nor reported as a fault by the widget. -/
theorem c7_play_move_applies_unconditionally :
    ∀ (B : Type) (e : Engine B) (st : WidgetState B) (m : Move)
      (a i : Bool),
    (play_move e st m a i).1.board = e.push st.board m ∧
    e.move_stack (play_move e st m a i).1.board
      = e.move_stack st.board ++ [m] ∧
    Event.board_push m ∈ (play_move e st m a i).2 ∧
    Event.move_played m i ∈ (play_move e st m a i).2 := by
  intro B e st m a i
  refine ⟨play_move_board e st m a i, ?_, ?_, ?_⟩
  · rw [play_move_board e st m a i, e.push_move_stack]
  · rw [play_move_trace]
    simp
  · rw [play_move_trace]
    simp

/-- C10: every move finalised from a pointer gesture goes through
`_make_interactive_move`, which is exactly `play_move` with
`animate=False, interactive=True`; a non-animated `play_move` leaves
the timer inactive and creates no animation segments (the list is
cleared or untouched); and neither pointer handler ever emits a
`timer_start`. -/
theorem c10_interactive_moves_not_animated :
    ∀ (B : Type) (e : Engine B) (st : WidgetState B) (m : Move) (i : Bool)
      (pos : Rat × Rat) (l : Bool),
    make_interactive_move e st m = play_move e st m false true ∧
    (play_move e st m false i).1.anim_timer_active = false ∧
    ((play_move e st m false i).1.animating_pieces = [] ∨
     (play_move e st m false i).1.animating_pieces
       = st.animating_pieces) ∧
    (mousePressEvent e st pos l).2.any is_timer_start = false ∧
    (mouseReleaseEvent e st pos).2.any is_timer_start = false := by
  intro B e st m i pos l
  refine ⟨rfl, play_move_timer e st m false i,
          play_move_no_new_segments e st m i, ?_, ?_⟩
  · rcases press_trace e st pos l with h0 | ⟨m2, hm⟩
    · simp [h0]
    · rw [hm]
      exact play_move_false_no_start e st m2 true
  · rcases release_trace e st pos with h0 | ⟨m2, hm⟩
    · simp [h0]
    · rw [hm]
      exact play_move_false_no_start e st m2 true

/-- C1: for a legal animated `play_move` occurring anywhere inside a
run, the run's trace splits around that step; within the step the board
push strictly precedes the `move_played` emission, the step performs no
tick, and tick events only ever arise from later `tick` commands — so
the mutation happens before the event, which happens before the first
animation tick. -/
theorem c1_mutation_before_event_before_tick {B : Type} (e : Engine B)
    (st : WidgetState B) (cs1 cs2 : List (Cmd B)) (m : Move)
    (_h : m ∈ e.legal_moves st.board) : c1Prop e st cs1 cs2 m := by
  refine ⟨?_, ?_, play_move_no_tick e (run e st cs1).1 m true false,
          fun st2 c hc => tick_only_from_tick e st2 c hc⟩
  · rw [run_append]
    simp [run, List.append_assoc]
  · have hstep : (step e (run e st cs1).1 (Cmd.play m true)).2
        = (play_move e (run e st cs1).1 m true false).2 := rfl
    by_cases ht : (run e st cs1).1.anim_timer_active
    · refine ⟨1, 2, by norm_num, ?_, ?_⟩
      · rw [hstep, play_move_trace]
        simp [ht]
      · rw [hstep, play_move_trace]
        simp [ht]
    · refine ⟨0, 1, by norm_num, ?_, ?_⟩
      · rw [hstep, play_move_trace]
        simp [ht]
      · rw [hstep, play_move_trace]
        simp [ht]

/-- C1 witness: playing e2e4 animated from the fresh board, followed by
one tick. -/
theorem c1_witness :
    mv_e2e4 ∈ SE.legal_moves (mkState b0).board ∧
    c1Prop SE (mkState b0) [] [Cmd.tick] mv_e2e4 :=
  ⟨by decide,
   c1_mutation_before_event_before_tick SE (mkState b0) [] [Cmd.tick]
     mv_e2e4 (by decide)⟩

/-- C2: playing `m2` animated while the animation of a previously
played `m1` is in flight discards the old task (timer stop with its
progress still short of 1), installs only `m2`'s segments with progress
reset to 0, leaves the board reflecting both moves in order, and after
twenty ticks the newest animation has completed: timer inactive,
segment list empty, progress clamped at 1. -/
theorem c2_interrupted_animation {B : Type} (e : Engine B)
    (st : WidgetState B) (m1 m2 : Move) (k : Nat)
    (hmid : (ticks e k (play_move e st m1 true false).1).anim_timer_active
      = true) : c2Prop e st m1 m2 k := by
  have h0 : (play_move e st m1 true false).1.anim_progress = 0 :=
    (play_move_segments e st m1 false).2
  have hlt := ticks_keeps_lt e k (play_move e st m1 true false).1
    (fun _ => by rw [h0]; norm_num) hmid
  have hsegs := play_move_segments e
    (ticks e k (play_move e st m1 true false).1) m2 false
  have hcomplete := ticks_complete e
    (play_move e (ticks e k (play_move e st m1 true false).1)
      m2 true false).1
    (play_move_timer e (ticks e k (play_move e st m1 true false).1)
      m2 true false)
    hsegs.2
  refine ⟨?_, hlt, hsegs.2, hsegs.1, ?_, hcomplete.1, hcomplete.2.1,
          hcomplete.2.2.1⟩
  · rw [play_move_trace, hmid]
    simp
  · rw [play_move_board, ticks_board, play_move_board]

/-- C2 witness: e2e4 animated and immediately interrupted by e7e5
animated, before any tick has fired. -/
theorem c2_witness :
    (ticks SE 0 (play_move SE (mkState b0) mv_e2e4 true false).1).anim_timer_active
      = true ∧
    c2Prop SE (mkState b0) mv_e2e4 mv_e7e5 0 :=
  ⟨play_move_timer SE (mkState b0) mv_e2e4 true false,
   c2_interrupted_animation SE (mkState b0) mv_e2e4 mv_e7e5 0
     (play_move_timer SE (mkState b0) mv_e2e4 true false)⟩

/-- C4: for every castling move played with `animate=True`, the
animation consists of the main segment plus the rook segment resolved
purely from the king's destination square; the resolver never yields a
pair with equal source and destination (the free-castling encodings,
where the rook would stay put, resolve to no pair at all), and a
resolver miss simply produces no rook segment — the whole path is a
total function of the inputs, so it cannot crash. -/
theorem c4_castling_rook_resolution {B : Type} (e : Engine B)
    (st : WidgetState B) (m : Move)
    (hc : e.is_castling st.board m = true) : c4Prop e st m := by
  have hseg := (play_move_segments e st m false).1
  refine ⟨?_, ?_, ?_⟩
  · rw [hseg]
    unfold anim_segments
    rw [if_pos hc]
  · intro a b hab
    unfold rook_squares_for at hab
    split_ifs at hab <;> simp at hab <;> omega
  · intro hn
    rw [hseg]
    unfold anim_segments
    rw [if_pos hc]
    unfold rook_segments
    rw [hn]
    simp

/-- C4 witness: white kingside castling e1g1 with the rook on h1. -/
theorem c4_witness :
    SE.is_castling (mkState b_castle).board mv_castle = true ∧
    c4Prop SE (mkState b_castle) mv_castle :=
  ⟨by decide,
   c4_castling_rook_resolution SE (mkState b_castle) mv_castle (by decide)⟩

/-- C9: from any state satisfying the selection invariant, every run of
pointer handlers and host operations preserves it (the stored list is
recomputed per selection and empty when nothing is selected); the
stored list only holds legal moves departing from the selected square;
and a press on a square without a piece of the side to move — when it
does not complete a move of the current selection — never populates the
list and never starts dragging. -/
theorem c9_selection_invariant {B : Type} (e : Engine B)
    (st : WidgetState B) (h : SelInv e st) : c9Prop e st := by
  refine ⟨fun cs => run_selInv e st cs h, ?_, ?_⟩
  · intro sq m hsel hm
    have h2 : st.legal_moves = (e.legal_moves st.board).filter
        (fun mm => mm.from_square == sq) := by
      unfold SelInv at h
      rw [hsel] at h
      exact h
    rw [h2, List.mem_filter] at hm
    exact ⟨hm.1, by simpa using hm.2⟩
  · intro pos sq hpos hpiece hnomove
    unfold mousePressEvent
    rw [if_pos rfl, hpos]
    cases hsel : st.selected_square with
    | none =>
      cases hp : e.piece_at st.board sq with
      | none => simp [hp, clear_selection]
      | some p =>
        have hcb : (p.color == e.turn st.board) = false := by
          simpa using hpiece p hp
        simp [hp, hcb, clear_selection]
    | some sel =>
      have hf := hnomove sel hsel
      cases hp : e.piece_at st.board sq with
      | none => simp [hf, hp, clear_selection]
      | some p =>
        have hcb : (p.color == e.turn st.board) = false := by
          simpa using hpiece p hp
        simp [hf, hp, hcb, clear_selection]

/-- C9 witness: the invariant and the press property at the freshly
constructed widget. -/
theorem c9_witness : SelInv SE (mkState b0) ∧ c9Prop SE (mkState b0) :=
  ⟨by unfold SelInv; rfl,
   c9_selection_invariant SE (mkState b0) (by unfold SelInv; rfl)⟩

end LichessBoard
